import Mathlib

/-!
Verification of the streaming audio feature extractor
`src/scripts/audio_analyzer.py` (class `AudioAnalyzer`) of the
nime-led-visuals repository against its natural-language specification.

Modelling conventions:

* Python floats are modelled by exact rationals `ℚ`; all configuration
  constants are taken from `src/scripts/config.py`.
* The numeric pipeline is translated stage by stage from
  `AudioAnalyzer.analyze`.  Chunks are mono float lists (the `int16` and
  stereo conversion branches at the top of `analyze` are the identity on
  this representation).
* External `numpy` routines whose exact values are transcendental
  (`np.sqrt`, `np.fft.rfft`, `np.hanning`, `np.log10`, `np.exp`,
  `10.0 ** x`, and the `np.logspace` band boundaries `SPECTRUM_FREQS`
  from `config.py`) are abstracted as components of a `NumpyModel`
  parameter; everything the analyzer computes from their results is
  translated exactly.  Theorems assume only the properties of the
  modelled routine they actually need, and witnesses instantiate the
  model with concrete functions.
* The one runtime error of `analyze` (the numpy broadcast error raised
  by `self.spectrum_buffer[-len(audio):] = audio` when a non-gated chunk
  is longer than the 2048-sample fine-path buffer) is modelled with
  `Except`.
-/

/-! ## Configuration constants (`src/scripts/config.py`) -/

def SAMPLE_RATE : ℚ := 48000

def CHUNK_SIZE : ℕ := 1024

def INPUT_GAIN : ℚ := 100

def NOISE_GATE_THRESHOLD : ℚ := 0.01

def DECAY_TIME : ℚ := 0.15

def FREQ_MIN : ℚ := 20

def FREQ_MAX : ℚ := 7040

def NUM_SPECTRUM_BANDS : ℕ := 32

/-- Legacy five-band table `FREQ_BANDS` (low Hz, high Hz, name). -/
def FREQ_BANDS : List (ℚ × ℚ × String) :=
  [(20, 90, "sub_bass"),
   (90, 250, "bass"),
   (250, 1000, "low_mid"),
   (1000, 2500, "mid_high"),
   (2500, 20000, "treble")]

/-- Fine-path FFT size (`self.spectrum_n_fft = 2048`). -/
def SPECTRUM_N_FFT : ℕ := 2048

/-! ## Small numpy helpers -/

/-- Model of `np.clip(x, lo, hi)`. -/
def clipQ (x lo hi : ℚ) : ℚ := min (max x lo) hi

/-- Model of `np.argmax`: first index of the maximum entry (a later entry
replaces the current best only when strictly larger). -/
def argmaxIdx (l : List ℚ) : ℕ :=
  (List.range l.length).foldl
    (fun best k => if l.getD best 0 < l.getD k 0 then k else best) 0

/-- Insert into an ascending-sorted list (helper for the median). -/
def insertAsc (x : ℚ) : List ℚ → List ℚ
  | [] => [x]
  | y :: ys => if x ≤ y then x :: y :: ys else y :: insertAsc x ys

/-- Ascending insertion sort (helper for the median). -/
def sortAsc : List ℚ → List ℚ
  | [] => []
  | x :: xs => insertAsc x (sortAsc xs)

/-- Model of `np.median` on a one-dimensional array: middle element of
the sorted data for odd length, mean of the two middle elements for even
length. -/
def medianQ (l : List ℚ) : ℚ :=
  if l.length = 0 then 0
  else if l.length % 2 = 1 then (sortAsc l).getD (l.length / 2) 0
  else ((sortAsc l).getD (l.length / 2 - 1) 0 + (sortAsc l).getD (l.length / 2) 0) / 2

/-- Model of `np.max` on a nonempty array (the analyzer only applies it
to the 32-entry peak vector). -/
def listMax : List ℚ → ℚ
  | [] => 0
  | x :: xs => xs.foldl max x

/-- Model of `float(np.mean(power[idx]))` over a bin index list, with the
source's guard mapping a band with no bins to zero energy. -/
def bandEnergy (power : List ℚ) (bins : List ℕ) : ℚ :=
  if bins.isEmpty then 0
  else (bins.map (fun k => power.getD k 0)).sum / (bins.length : ℚ)

/-- Elementwise product of a data vector with a window vector
(`frame * window`). -/
def windowedBy (w xs : List ℚ) : List ℚ := List.zipWith (· * ·) xs w

/-- Power spectrum of a complex FFT result
(`spectrum.real ** 2 + spectrum.imag ** 2`). -/
def powerOf (spec : List (ℚ × ℚ)) : List ℚ :=
  spec.map (fun z => z.1 ^ 2 + z.2 ^ 2)

/-! ## Abstract model of the transcendental numpy routines -/

/-- Abstract model of the external `numpy` routines used by the
analyzer.  Their exact values are transcendental reals (floats at
runtime), so the pipeline is stated for an arbitrary model; theorems add
only the properties of the modelled routine they need. -/
structure NumpyModel where
  /-- Model of `np.sqrt`. -/
  sqrtQ : ℚ → ℚ
  /-- Model of `np.fft.rfft`: the complex spectrum, as (real, imaginary)
  pairs, of a real vector. -/
  rfftQ : List ℚ → List (ℚ × ℚ)
  /-- Model of `np.hanning n` (the window vector of length `n`). -/
  hann : ℕ → List ℚ
  /-- Model of `np.log10`. -/
  log10Q : ℚ → ℚ
  /-- Model of `np.exp`. -/
  expQ : ℚ → ℚ
  /-- Model of `10.0 ** x`. -/
  pow10Q : ℚ → ℚ
  /-- Model of `SPECTRUM_FREQS` from `config.py`
  (`np.logspace(np.log10(20), np.log10(7040), 33)`): the
  logarithmically spaced band boundaries, entries 0..32. -/
  sf : ℕ → ℚ

/-! ## Precomputed bin tables (`AudioAnalyzer.__init__`) -/

/-- Model of `rfftfreq(1024, 1/48000)`: fast-path bin frequencies
`k * sample_rate / n_fft` for bins 0..512. -/
def fastFreqs : List ℚ :=
  (List.range (CHUNK_SIZE / 2 + 1)).map
    (fun (k : ℕ) => (k : ℚ) * SAMPLE_RATE / (CHUNK_SIZE : ℚ))

/-- Fast-path bin indices of each legacy band, in `FREQ_BANDS` order
(`self.band_bins`, computed by `np.where((freqs >= low) & (freqs < high))`). -/
def legacyBandBins : List (List ℕ) :=
  FREQ_BANDS.map (fun b =>
    (List.range (CHUNK_SIZE / 2 + 1)).filter
      (fun (k : ℕ) => decide (b.1 ≤ (k : ℚ) * SAMPLE_RATE / (CHUNK_SIZE : ℚ) ∧
                        (k : ℚ) * SAMPLE_RATE / (CHUNK_SIZE : ℚ) < b.2.1)))

/-- Fine-path bin indices of each of the 32 spectrum bands
(`self.spectrum_bins`), relative to `rfftfreq(2048, 1/48000)`. -/
def spectrumBins (M : NumpyModel) : List (List ℕ) :=
  (List.range NUM_SPECTRUM_BANDS).map (fun (i : ℕ) =>
    (List.range (SPECTRUM_N_FFT / 2 + 1)).filter
      (fun (k : ℕ) => decide (M.sf i ≤ (k : ℚ) * SAMPLE_RATE / (SPECTRUM_N_FFT : ℚ) ∧
                        (k : ℚ) * SAMPLE_RATE / (SPECTRUM_N_FFT : ℚ) < M.sf (i + 1))))

/-- Bass boost vector (source lines 167-171): `2.0 - (i / 4.0) * 1.0`
for bands 0..3, and 1 for every other band. -/
def bassBoost : List ℚ :=
  (List.range NUM_SPECTRUM_BANDS).map
    (fun (i : ℕ) => if i < 4 then 2 - ((i : ℚ) / 4) * 1 else 1)

/-! ## Analyzer state and feature frame -/

/-- Mutable state of one `AudioAnalyzer` (the fields of `self` that
`analyze` reads and writes).  The legacy `band_max` dictionary is kept
as a list in `FREQ_BANDS` order. -/
structure AnalyzerState where
  bandMax : List ℚ
  prevRawVolume : ℚ
  spectrumMax : List ℚ
  prevSpectrum : List ℚ
  envelopeValue : ℚ
  spectrumBuffer : List ℚ
deriving Repr, DecidableEq

/-- Initial analyzer state (`AudioAnalyzer.__init__`): all peaks 0.1,
everything else zero, the fine-path buffer zero-filled. -/
def initState : AnalyzerState :=
  { bandMax := List.replicate 5 0.1
    prevRawVolume := 0
    spectrumMax := List.replicate NUM_SPECTRUM_BANDS 0.1
    prevSpectrum := List.replicate NUM_SPECTRUM_BANDS 0
    envelopeValue := 0
    spectrumBuffer := List.replicate SPECTRUM_N_FFT 0 }

/-- The feature dictionary returned by one `analyze` call. -/
structure FeatureFrame where
  volume : ℚ
  bass : ℚ
  mid : ℚ
  high : ℚ
  subBass : ℚ
  lowMid : ℚ
  midHigh : ℚ
  treble : ℚ
  centroid : ℚ
  bandwidth : ℚ
  transient : ℚ
  envelope : ℚ
  spectrum : List ℚ
  dominantBand : ℤ
  dominantFreq : ℚ
  tonalness : ℚ
deriving Repr, DecidableEq

/-! ## Input conditioning and noise gate -/

/-- Gain-scaled chunk (`audio = audio * INPUT_GAIN`). -/
def gainedAudio (c : List ℚ) : List ℚ := c.map (fun x => x * INPUT_GAIN)

/-- Mean of squares of the gained chunk (`np.mean(audio ** 2)`). -/
def meanSquare (c : List ℚ) : ℚ :=
  ((gainedAudio c).map (fun x => x ^ 2)).sum / ((gainedAudio c).length : ℚ)

/-- RMS volume:
`float(np.sqrt(np.mean(audio ** 2))) if audio.size > 0 else 0.0`. -/
def rmsVolume (M : NumpyModel) (c : List ℚ) : ℚ :=
  if (gainedAudio c).isEmpty then 0 else M.sqrtQ (meanSquare c)

/-- Envelope decay on a gated step (source lines 110-112): multiply by
0.85 and snap to zero below 0.01. -/
def gatedEnvelope (st : AnalyzerState) : ℚ :=
  if st.envelopeValue * 0.85 < 0.01 then 0 else st.envelopeValue * 0.85

/-- Decayed smoothed spectrum on a gated step
(`self.prev_spectrum *= 0.9`). -/
def gatedSpectrum (st : AnalyzerState) : List ℚ :=
  st.prevSpectrum.map (fun x => x * 0.9)

/-- The early-return branch taken when `volume < NOISE_GATE_THRESHOLD`
(source lines 108-131): decay the envelope and the smoothed spectrum and
return an otherwise zeroed frame with the dominant-band sentinel -1. -/
def gatedStep (st : AnalyzerState) : FeatureFrame × AnalyzerState :=
  ({ volume := 0, bass := 0, mid := 0, high := 0, subBass := 0, lowMid := 0,
     midHigh := 0, treble := 0, centroid := 0, bandwidth := 0, transient := 0,
     envelope := gatedEnvelope st, spectrum := gatedSpectrum st,
     dominantBand := -1, dominantFreq := 0, tonalness := 0 },
   { st with envelopeValue := gatedEnvelope st, prevSpectrum := gatedSpectrum st })

/-! ## Fast path: legacy bands, centroid, bandwidth, transient -/

/-- Fast-path analysis frame (source lines 134-138): left-zero-pad the
gained chunk to `n_fft` samples, or keep its last `n_fft` samples. -/
def fastFrame (c : List ℚ) : List ℚ :=
  if (gainedAudio c).length < CHUNK_SIZE then
    List.replicate (CHUNK_SIZE - (gainedAudio c).length) 0 ++ gainedAudio c
  else (gainedAudio c).drop ((gainedAudio c).length - CHUNK_SIZE)

/-- Fast-path power spectrum (window, `rfft`, squared magnitudes;
source lines 141-143). -/
def fastPower (M : NumpyModel) (c : List ℚ) : List ℚ :=
  powerOf (M.rfftQ (windowedBy (M.hann CHUNK_SIZE) (fastFrame c)))

/-- Legacy band energies in `FREQ_BANDS` order (source lines 279-283). -/
def legacyEnergies (M : NumpyModel) (c : List ℚ) : List ℚ :=
  legacyBandBins.map (bandEnergy (fastPower M c))

/-- Total raw legacy band energy (`total_energy`, source line 285). -/
def legacyTotalEnergy (M : NumpyModel) (c : List ℚ) : ℚ :=
  (legacyEnergies M c).sum

/-- Updated per-band legacy running peaks (source line 286):
`self.band_max[name] = max(energy, self.band_max[name] * 0.60)`. -/
def newBandMax (M : NumpyModel) (st : AnalyzerState) (c : List ℚ) : List ℚ :=
  List.zipWith (fun e m => max e (m * 0.60)) (legacyEnergies M c) st.bandMax

/-- Normalized legacy band energies (source lines 287-288):
`norm = energy / max(band_max, 0.01)` against the band's own updated
peak, clipped to [0,1]. -/
def legacyNorms (M : NumpyModel) (st : AnalyzerState) (c : List ℚ) : List ℚ :=
  List.zipWith (fun e m => clipQ (e / max m 0.01) 0 1)
    (legacyEnergies M c) (newBandMax M st c)

/-- Total fast-path spectral power (`mag_sum`, source line 296). -/
def magSum (M : NumpyModel) (c : List ℚ) : ℚ := (fastPower M c).sum

/-- Spectral centroid in Hz (source lines 296-301):
`np.sum(self.freqs * mag_norm)` with `mag_norm = power / mag_sum`, and 0
when the total power is not positive. -/
def centroidHz (M : NumpyModel) (c : List ℚ) : ℚ :=
  if 0 < magSum M c then
    (List.zipWith (· * ·) fastFreqs
      ((fastPower M c).map (fun p => p / magSum M c))).sum
  else 0

/-- Log-normalized centroid (source lines 303-307). -/
def centroidNorm (M : NumpyModel) (c : List ℚ) : ℚ :=
  if centroidHz M c ≤ 0 then 0
  else clipQ (M.log10Q (max (centroidHz M c) FREQ_MIN) / M.log10Q FREQ_MAX) 0 1

/-- Energy-weighted variance of frequency around the centroid
(source line 311). -/
def bandwidthVariance (M : NumpyModel) (c : List ℚ) : ℚ :=
  (List.zipWith (fun f mn => (f - centroidHz M c) ^ 2 * mn) fastFreqs
    ((fastPower M c).map (fun p => p / magSum M c))).sum

/-- Bandwidth in Hz (source lines 310-314). -/
def bandwidthHz (M : NumpyModel) (c : List ℚ) : ℚ :=
  if 0 < magSum M c then
    (if 0 < bandwidthVariance M c then M.sqrtQ (bandwidthVariance M c) else 0)
  else 0

/-- Log-normalized bandwidth (source lines 316-320). -/
def bandwidthNorm (M : NumpyModel) (c : List ℚ) : ℚ :=
  if bandwidthHz M c ≤ 0 then 0
  else clipQ (M.log10Q (max (bandwidthHz M c) 1) / M.log10Q (FREQ_MAX / 4)) 0 1

/-- Transient magnitude (source lines 322-328): relative positive jump
of the total legacy band energy since the previous frame, clipped to
[0,1]. -/
def transientVal (M : NumpyModel) (st : AnalyzerState) (c : List ℚ) : ℚ :=
  clipQ
    (if 0 < legacyTotalEnergy M c then
      max 0 (legacyTotalEnergy M c - st.prevRawVolume) / max (legacyTotalEnergy M c) 0.001
     else 0) 0 1

/-! ## Fine path: 32-band spectrum -/

/-- Fine-path buffer update (source lines 147-148):
`np.roll(buffer, -len(audio))` followed by writing the chunk into the
tail, i.e. drop the oldest `len(audio)` samples and append the chunk.
Well-defined only for `len(audio) ≤ 2048`; beyond that the numpy slice
assignment raises (see `analyze`). -/
def newSpectrumBuffer (st : AnalyzerState) (c : List ℚ) : List ℚ :=
  st.spectrumBuffer.drop (gainedAudio c).length ++ gainedAudio c

/-- Fine-path power spectrum (source lines 151-153). -/
def finePower (M : NumpyModel) (st : AnalyzerState) (c : List ℚ) : List ℚ :=
  powerOf (M.rfftQ (windowedBy (M.hann SPECTRUM_N_FFT) (newSpectrumBuffer st c)))

/-- Raw 32-band spectrum energies (source lines 159-162). -/
def rawSpectrumBands (M : NumpyModel) (st : AnalyzerState) (c : List ℚ) : List ℚ :=
  (spectrumBins M).map (bandEnergy (finePower M st c))

/-- Spectrum bands after the bass boost
(`spectrum_bands = spectrum_bands * bass_boost`, source line 172). -/
def boostedBands (M : NumpyModel) (st : AnalyzerState) (c : List ℚ) : List ℚ :=
  List.zipWith (· * ·) (rawSpectrumBands M st c) bassBoost

/-- Dominant band found before harmonic suppression
(`temp_dominant_band`, source line 180). -/
def tempDominantBand (M : NumpyModel) (st : AnalyzerState) (c : List ℚ) : ℕ :=
  argmaxIdx (boostedBands M st c)

/-- Center frequency of spectrum band `i`
(`0.5 * (SPECTRUM_FREQS[i] + SPECTRUM_FREQS[i+1])`). -/
def bandCenter (M : NumpyModel) (i : ℕ) : ℚ := 0.5 * (M.sf i + M.sf (i + 1))

/-- Base suppression strength in dB for harmonic number `h`
(source lines 202-207). -/
def baseSuppressionDb (h : ℕ) : ℚ :=
  if h = 2 then -36 else if h = 3 then -30 else -24

/-- Linear suppression factor for harmonic `h` at frequency ratio `r`
(source lines 211-216):
`10.0 ** ((base_db * exp(-((|r - 1| / 0.015) ** 2) / 2.0)) / 20.0)`. -/
def suppressionFactor (M : NumpyModel) (h : ℕ) (r : ℚ) : ℚ :=
  M.pow10Q (baseSuppressionDb h * M.expQ (-((abs (r - 1) / 0.015) ^ 2) / 2) / 20)

/-- The tolerance window test `0.95 <= freq_ratio <= 1.05`
(source line 200). -/
def inHarmonicWindow (r : ℚ) : Bool := decide (0.95 ≤ r ∧ r ≤ 1.05)

/-- Harmonic-suppression vector for fundamental frequency `fund`
(source lines 176-218): for each band, the first harmonic number 2..15
whose tolerance window contains the band center's frequency ratio
contributes `min 1 (suppression factor)` (the vector starts as ones and
the loop `break`s after the first hit); bands with no hit, or everything
when `fund ≤ 0` (the `if fundamental_freq > 0.0` guard), keep factor 1. -/
def harmonicSuppression (M : NumpyModel) (fund : ℚ) : List ℚ :=
  (List.range NUM_SPECTRUM_BANDS).map (fun b =>
    if 0 < fund then
      match (List.range' 2 14).find?
          (fun (h : ℕ) => inHarmonicWindow (bandCenter M b / (fund * (h : ℚ)))) with
      | some h => min 1 (suppressionFactor M h (bandCenter M b / (fund * (h : ℚ))))
      | none => 1
    else 1)

/-- Spectrum bands after harmonic suppression (source lines 176-220).
The suppression vector is computed only when
`np.sum(spectrum_bands) > 0`; otherwise it stays all ones. -/
def suppressedBands (M : NumpyModel) (st : AnalyzerState) (c : List ℚ) : List ℚ :=
  List.zipWith (· * ·) (boostedBands M st c)
    (if 0 < (boostedBands M st c).sum then
      harmonicSuppression M (bandCenter M (tempDominantBand M st c))
     else List.replicate NUM_SPECTRUM_BANDS 1)

/-- Post-suppression cleanup (source lines 222-231): if more than five
bands exceed 0.0001, scale every band above 2.5 times the median of
those bands down to 30 percent, except the pre-suppression dominant
band.  (`temp_dominant_band` is assigned only when
`np.sum(spectrum_bands) > 0`, but the cleanup loop can only run in that
case - otherwise every band is zero - so reading it here is exactly the
source's behavior.) -/
def cleanupBands (bands : List ℚ) (tempDom : ℕ) : List ℚ :=
  if 5 < (bands.filter (fun x => decide ((0.0001 : ℚ) < x))).length then
    (List.range NUM_SPECTRUM_BANDS).map (fun i =>
      if medianQ (bands.filter (fun x => decide ((0.0001 : ℚ) < x))) * 2.5 < bands.getD i 0 ∧
          i ≠ tempDom then
        bands.getD i 0 * 0.3
      else bands.getD i 0)
  else bands

/-- The spectrum bands used for dominance, peaks and normalization. -/
def cleanedBands (M : NumpyModel) (st : AnalyzerState) (c : List ℚ) : List ℚ :=
  cleanupBands (suppressedBands M st c) (tempDominantBand M st c)

/-- Dominant band index (with sentinel -1), dominant frequency and
tonalness (source lines 236-246). -/
def dominantData (M : NumpyModel) (st : AnalyzerState) (c : List ℚ) : ℤ × ℚ × ℚ :=
  if 0 < (cleanedBands M st c).sum then
    ((argmaxIdx (cleanedBands M st c) : ℤ),
     bandCenter M (argmaxIdx (cleanedBands M st c)),
     (cleanedBands M st c).getD (argmaxIdx (cleanedBands M st c)) 0 /
       (cleanedBands M st c).sum)
  else (-1, 0, 0)

/-- Updated 32-band running peaks (source line 249):
`np.maximum(spectrum_bands, self.spectrum_max * 0.95)`. -/
def newSpectrumMax (M : NumpyModel) (st : AnalyzerState) (c : List ℚ) : List ℚ :=
  List.zipWith (fun b m => max b (m * 0.95)) (cleanedBands M st c) st.spectrumMax

/-- The shared normalization reference (source line 253):
`float(np.max(self.spectrum_max))`. -/
def globalMax (M : NumpyModel) (st : AnalyzerState) (c : List ℚ) : ℚ :=
  listMax (newSpectrumMax M st c)

/-- Normalized spectrum (source lines 255-264): each positive band is
divided by `max(global_max, 0.01)` - the global maximum over the whole
peak vector, not the band's own peak - and the vector is clipped to
[0,1]. -/
def spectrumNorm (M : NumpyModel) (st : AnalyzerState) (c : List ℚ) : List ℚ :=
  ((List.range NUM_SPECTRUM_BANDS).map (fun i =>
    if 0 < (cleanedBands M st c).getD i 0 then
      (cleanedBands M st c).getD i 0 / max (globalMax M st c) 0.01
    else 0)).map (fun x => clipQ x 0 1)

/-- Attack/decay smoothing into the previous spectrum frame (source
lines 267-273): attack rate 0.6 when the new value is larger, decay rate
0.2 otherwise. -/
def newPrevSpectrum (M : NumpyModel) (st : AnalyzerState) (c : List ℚ) : List ℚ :=
  List.zipWith (fun n p => if p < n then p + (n - p) * 0.6 else p + (n - p) * 0.2)
    (spectrumNorm M st c) st.prevSpectrum

/-! ## Envelope follower -/

/-- Envelope attack target (`target = max(bass, mid, high)`, source
line 332). -/
def envelopeTarget (M : NumpyModel) (st : AnalyzerState) (c : List ℚ) : ℚ :=
  max ((legacyNorms M st c).getD 1 0)
    (max (((legacyNorms M st c).getD 2 0 + (legacyNorms M st c).getD 3 0) / 2)
      ((legacyNorms M st c).getD 4 0))

/-- Per-chunk exponential decay factor (source lines 336-337):
`1.0 - (chunk_duration / DECAY_TIME)` with
`chunk_duration = CHUNK_SIZE / sample_rate`. -/
def envelopeDecayFactor : ℚ := 1 - ((CHUNK_SIZE : ℚ) / SAMPLE_RATE) / DECAY_TIME

/-- Updated envelope (source lines 331-340): instant attack to the
target when it exceeds the current value, otherwise exponential decay;
clipped to [0,1]. -/
def newEnvelope (M : NumpyModel) (st : AnalyzerState) (c : List ℚ) : ℚ :=
  clipQ (if st.envelopeValue < envelopeTarget M st c then envelopeTarget M st c
         else st.envelopeValue * envelopeDecayFactor) 0 1

/-! ## The analyze step -/

/-- The full non-gated analysis step (source lines 133-359). -/
def nonGatedStep (M : NumpyModel) (st : AnalyzerState) (c : List ℚ) :
    FeatureFrame × AnalyzerState :=
  ({ volume := rmsVolume M c
     bass := (legacyNorms M st c).getD 1 0
     mid := ((legacyNorms M st c).getD 2 0 + (legacyNorms M st c).getD 3 0) / 2
     high := (legacyNorms M st c).getD 4 0
     subBass := (legacyNorms M st c).getD 0 0
     lowMid := (legacyNorms M st c).getD 2 0
     midHigh := (legacyNorms M st c).getD 3 0
     treble := (legacyNorms M st c).getD 4 0
     centroid := centroidNorm M c
     bandwidth := bandwidthNorm M c
     transient := transientVal M st c
     envelope := newEnvelope M st c
     spectrum := newPrevSpectrum M st c
     dominantBand := (dominantData M st c).1
     dominantFreq := (dominantData M st c).2.1
     tonalness := (dominantData M st c).2.2 },
   { bandMax := newBandMax M st c
     prevRawVolume := legacyTotalEnergy M c
     spectrumMax := newSpectrumMax M st c
     prevSpectrum := newPrevSpectrum M st c
     envelopeValue := newEnvelope M st c
     spectrumBuffer := newSpectrumBuffer st c })

/-- The numpy broadcast failure raised by the fine-buffer write for
over-long chunks. -/
def broadcastErrorMsg : String :=
  "could not broadcast chunk into spectrum buffer"

/-- One call of `AudioAnalyzer.analyze` on a mono float chunk: noise
gate with early return (source lines 104-131), otherwise the full
pipeline.  A non-gated chunk longer than the 2048-sample fine buffer
makes the numpy slice assignment at source line 148 raise; that is the
`Except.error` case. -/
def analyze (M : NumpyModel) (st : AnalyzerState) (c : List ℚ) :
    Except String (FeatureFrame × AnalyzerState) :=
  if rmsVolume M c < NOISE_GATE_THRESHOLD then .ok (gatedStep st)
  else if SPECTRUM_N_FFT < (gainedAudio c).length then .error broadcastErrorMsg
  else .ok (nonGatedStep M st c)

/-- Run a sequence of chunks from a state, threading the analyzer
state. -/
def runAnalyzer (M : NumpyModel) (st : AnalyzerState) :
    List (List ℚ) → Except String AnalyzerState
  | [] => .ok st
  | c :: cs =>
    match analyze M st c with
    | .error e => .error e
    | .ok (_, st') => runAnalyzer M st' cs

/-- Modelled from the spec's words, for the refinement comparison in
claim C2: "Normalized energy = `current_energy / max(peak, floor)`,
clamped to [0,1]" with the band's own updated peak and floor 0.01. -/
def perBandNormOfSpec (energy peak : ℚ) : ℚ := clipQ (energy / max peak 0.01) 0 1

/-- Exact real value of the harmonic suppression factor formula at
deviation `d` from the exact harmonic ratio (source lines 211-216):
`10.0 ** ((base_db * exp(-((d / 0.015) ** 2) / 2.0)) / 20.0)`. -/
noncomputable def suppressionLinearReal (baseDb d : ℝ) : ℝ :=
  (10 : ℝ) ^ (baseDb * Real.exp (-((d / 0.015) ^ 2) / 2) / 20)

/-! ## Helper lemmas -/

attribute [local semireducible] Rat.ofScientific Rat.mul Rat.inv Rat.add Rat.sub

/-- Membership in the unit interval: the spec's notion of a normalized
quantity. -/
def UnitInterval (x : ℚ) : Prop := 0 ≤ x ∧ x ≤ 1

theorem clipQ_unit (x : ℚ) : UnitInterval (clipQ x 0 1) :=
  ⟨le_min (le_max_right x 0) zero_le_one, min_le_right _ _⟩

theorem clipQ_eq_self {x : ℚ} (h0 : 0 ≤ x) (h1 : x ≤ 1) : clipQ x 0 1 = x := by
  unfold clipQ
  rw [max_eq_left h0, min_eq_left h1]

theorem unit_getD {l : List ℚ} (h : ∀ x ∈ l, UnitInterval x) (k : ℕ) :
    UnitInterval (l.getD k 0) := by
  induction l generalizing k with
  | nil => exact ⟨le_refl 0, zero_le_one⟩
  | cons a as ih =>
    cases k with
    | zero =>
      rw [List.getD_cons_zero]
      exact h a (List.mem_cons_self a as)
    | succ n =>
      rw [List.getD_cons_succ]
      exact ih (fun x hx => h x (List.mem_cons_of_mem a hx)) n

theorem nonneg_getD {l : List ℚ} (h : ∀ x ∈ l, 0 ≤ x) (k : ℕ) : 0 ≤ l.getD k 0 := by
  induction l generalizing k with
  | nil => exact le_refl 0
  | cons a as ih =>
    cases k with
    | zero =>
      rw [List.getD_cons_zero]
      exact h a (List.mem_cons_self a as)
    | succ n =>
      rw [List.getD_cons_succ]
      exact ih (fun x hx => h x (List.mem_cons_of_mem a hx)) n

theorem getD_le_sum {l : List ℚ} (h : ∀ x ∈ l, 0 ≤ x) (k : ℕ) : l.getD k 0 ≤ l.sum := by
  induction l generalizing k with
  | nil => exact le_refl 0
  | cons a as ih =>
    have has : ∀ x ∈ as, 0 ≤ x := fun x hx => h x (List.mem_cons_of_mem a hx)
    have hsum : 0 ≤ as.sum := List.sum_nonneg has
    have ha : 0 ≤ a := h a (List.mem_cons_self a as)
    cases k with
    | zero =>
      rw [List.getD_cons_zero, List.sum_cons]
      linarith
    | succ n =>
      rw [List.getD_cons_succ, List.sum_cons]
      have := ih has n
      linarith

theorem exists_of_mem_zipWith {α β γ : Type} {f : α → β → γ} :
    ∀ {l₁ : List α} {l₂ : List β} {x : γ},
      x ∈ List.zipWith f l₁ l₂ → ∃ a b, a ∈ l₁ ∧ b ∈ l₂ ∧ x = f a b := by
  intro l₁
  induction l₁ with
  | nil =>
    intro l₂ x h
    simp [List.zipWith] at h
  | cons a as ih =>
    intro l₂ x h
    cases l₂ with
    | nil => simp [List.zipWith] at h
    | cons b bs =>
      rw [List.zipWith_cons_cons] at h
      rcases List.mem_cons.1 h with h | h
      · exact ⟨a, b, List.mem_cons_self a as, List.mem_cons_self b bs, h⟩
      · rcases ih h with ⟨a', b', ha, hb, hx⟩
        exact ⟨a', b', List.mem_cons_of_mem a ha, List.mem_cons_of_mem b hb, hx⟩

theorem powerOf_nonneg (s : List (ℚ × ℚ)) : ∀ x ∈ powerOf s, 0 ≤ x := by
  intro x hx
  rcases List.mem_map.1 hx with ⟨z, _, rfl⟩
  positivity

theorem bandEnergy_nonneg {power : List ℚ} (hp : ∀ x ∈ power, 0 ≤ x) (bins : List ℕ) :
    0 ≤ bandEnergy power bins := by
  unfold bandEnergy
  split
  · exact le_refl 0
  · apply div_nonneg
    · apply List.sum_nonneg
      intro x hx
      rcases List.mem_map.1 hx with ⟨k, _, rfl⟩
      exact nonneg_getD hp k
    · exact Nat.cast_nonneg _

theorem fastPower_nonneg (M : NumpyModel) (c : List ℚ) : ∀ x ∈ fastPower M c, 0 ≤ x :=
  powerOf_nonneg _

theorem finePower_nonneg (M : NumpyModel) (st : AnalyzerState) (c : List ℚ) :
    ∀ x ∈ finePower M st c, 0 ≤ x :=
  powerOf_nonneg _

theorem legacyEnergies_nonneg (M : NumpyModel) (c : List ℚ) :
    ∀ x ∈ legacyEnergies M c, 0 ≤ x := by
  intro x hx
  rcases List.mem_map.1 hx with ⟨bins, _, rfl⟩
  exact bandEnergy_nonneg (fastPower_nonneg M c) bins

theorem rawSpectrumBands_nonneg (M : NumpyModel) (st : AnalyzerState) (c : List ℚ) :
    ∀ x ∈ rawSpectrumBands M st c, 0 ≤ x := by
  intro x hx
  rcases List.mem_map.1 hx with ⟨bins, _, rfl⟩
  exact bandEnergy_nonneg (finePower_nonneg M st c) bins

theorem bassBoost_nonneg : ∀ x ∈ bassBoost, 0 ≤ x := by
  intro x hx
  rcases List.mem_map.1 hx with ⟨i, hi, rfl⟩
  split
  · rename_i h4
    have : (i : ℚ) < 4 := by exact_mod_cast h4
    nlinarith
  · exact zero_le_one

theorem boostedBands_nonneg (M : NumpyModel) (st : AnalyzerState) (c : List ℚ) :
    ∀ x ∈ boostedBands M st c, 0 ≤ x := by
  intro x hx
  rcases exists_of_mem_zipWith hx with ⟨a, b, ha, hb, rfl⟩
  exact mul_nonneg (rawSpectrumBands_nonneg M st c a ha) (bassBoost_nonneg b hb)

theorem harmonicSuppression_nonneg (M : NumpyModel) (fund : ℚ)
    (hM : ∀ x, 0 ≤ M.pow10Q x) : ∀ x ∈ harmonicSuppression M fund, 0 ≤ x := by
  intro x hx
  rcases List.mem_map.1 hx with ⟨b, _, rfl⟩
  split
  · rcases (List.range' 2 14).find?
        (fun (h : ℕ) => inHarmonicWindow (bandCenter M b / (fund * (h : ℚ)))) with _ | h
    · exact zero_le_one
    · exact le_min zero_le_one (hM _)
  · exact zero_le_one

theorem suppressedBands_nonneg (M : NumpyModel) (st : AnalyzerState) (c : List ℚ)
    (hM : ∀ x, 0 ≤ M.pow10Q x) : ∀ x ∈ suppressedBands M st c, 0 ≤ x := by
  intro x hx
  unfold suppressedBands at hx
  rcases exists_of_mem_zipWith hx with ⟨a, b, ha, hb, rfl⟩
  refine mul_nonneg (boostedBands_nonneg M st c a ha) ?_
  rcases (em (0 < (boostedBands M st c).sum)) with hpos | hpos
  · rw [if_pos hpos] at hb
    exact harmonicSuppression_nonneg M _ hM b hb
  · rw [if_neg hpos] at hb
    rw [List.eq_of_mem_replicate hb]
    exact zero_le_one

theorem cleanupBands_nonneg {bands : List ℚ} (hb : ∀ x ∈ bands, 0 ≤ x) (tempDom : ℕ) :
    ∀ x ∈ cleanupBands bands tempDom, 0 ≤ x := by
  intro x hx
  unfold cleanupBands at hx
  rcases (em (5 < (bands.filter (fun x => decide ((0.0001 : ℚ) < x))).length)) with h5 | h5
  · rw [if_pos h5] at hx
    rcases List.mem_map.1 hx with ⟨i, _, rfl⟩
    split
    · exact mul_nonneg (nonneg_getD hb i) (by norm_num)
    · exact nonneg_getD hb i
  · rw [if_neg h5] at hx
    exact hb x hx

theorem cleanedBands_nonneg (M : NumpyModel) (st : AnalyzerState) (c : List ℚ)
    (hM : ∀ x, 0 ≤ M.pow10Q x) : ∀ x ∈ cleanedBands M st c, 0 ≤ x :=
  cleanupBands_nonneg (suppressedBands_nonneg M st c hM) _

theorem smooth_unit {n p : ℚ} (hn : UnitInterval n) (hp : UnitInterval p) :
    UnitInterval (if p < n then p + (n - p) * 0.6 else p + (n - p) * 0.2) := by
  obtain ⟨hn0, hn1⟩ := hn
  obtain ⟨hp0, hp1⟩ := hp
  split
  · constructor <;> nlinarith
  · rename_i hle
    push_neg at hle
    constructor <;> nlinarith

theorem legacyNorms_unit (M : NumpyModel) (st : AnalyzerState) (c : List ℚ) :
    ∀ x ∈ legacyNorms M st c, UnitInterval x := by
  intro x hx
  rcases exists_of_mem_zipWith hx with ⟨a, b, _, _, rfl⟩
  exact clipQ_unit _

theorem spectrumNorm_unit (M : NumpyModel) (st : AnalyzerState) (c : List ℚ) :
    ∀ x ∈ spectrumNorm M st c, UnitInterval x := by
  intro x hx
  rcases List.mem_map.1 hx with ⟨a, _, rfl⟩
  exact clipQ_unit _

theorem newPrevSpectrum_unit (M : NumpyModel) (st : AnalyzerState) (c : List ℚ)
    (hst : ∀ x ∈ st.prevSpectrum, UnitInterval x) :
    ∀ x ∈ newPrevSpectrum M st c, UnitInterval x := by
  intro x hx
  rcases exists_of_mem_zipWith hx with ⟨a, b, ha, hb, rfl⟩
  exact smooth_unit (spectrumNorm_unit M st c a ha) (hst b hb)

theorem gatedSpectrum_unit (st : AnalyzerState)
    (hst : ∀ x ∈ st.prevSpectrum, UnitInterval x) :
    ∀ x ∈ gatedSpectrum st, UnitInterval x := by
  intro x hx
  rcases List.mem_map.1 hx with ⟨a, ha, rfl⟩
  obtain ⟨h0, h1⟩ := hst a ha
  constructor <;> nlinarith

theorem gatedEnvelope_le (st : AnalyzerState) (h0 : 0 ≤ st.envelopeValue) :
    gatedEnvelope st ≤ 0.85 * st.envelopeValue ∧ 0 ≤ gatedEnvelope st := by
  unfold gatedEnvelope
  split
  · exact ⟨by nlinarith, le_refl 0⟩
  · exact ⟨by nlinarith, by nlinarith⟩

theorem gatedEnvelope_unit (st : AnalyzerState) (hst : UnitInterval st.envelopeValue) :
    UnitInterval (gatedEnvelope st) := by
  obtain ⟨h0, h1⟩ := hst
  unfold gatedEnvelope
  split
  · exact ⟨le_refl 0, zero_le_one⟩
  · constructor <;> nlinarith

/-- State invariant holding for the initial state and preserved by every
successful `analyze` call: the smoothed spectrum entries and the
envelope lie in [0,1]. -/
def WellFormedState (st : AnalyzerState) : Prop :=
  (∀ x ∈ st.prevSpectrum, UnitInterval x) ∧ UnitInterval st.envelopeValue

theorem wellFormed_initState : WellFormedState initState := by
  constructor
  · intro x hx
    have hx' : x ∈ List.replicate NUM_SPECTRUM_BANDS (0 : ℚ) := hx
    rw [List.eq_of_mem_replicate hx']
    exact ⟨le_refl 0, zero_le_one⟩
  · exact ⟨le_refl 0, zero_le_one⟩

theorem newEnvelope_unit (M : NumpyModel) (st : AnalyzerState) (c : List ℚ) :
    UnitInterval (newEnvelope M st c) :=
  clipQ_unit _

theorem centroidNorm_unit (M : NumpyModel) (c : List ℚ) :
    UnitInterval (centroidNorm M c) := by
  unfold centroidNorm
  split
  · exact ⟨le_refl 0, zero_le_one⟩
  · exact clipQ_unit _

theorem bandwidthNorm_unit (M : NumpyModel) (c : List ℚ) :
    UnitInterval (bandwidthNorm M c) := by
  unfold bandwidthNorm
  split
  · exact ⟨le_refl 0, zero_le_one⟩
  · exact clipQ_unit _

theorem transientVal_unit (M : NumpyModel) (st : AnalyzerState) (c : List ℚ) :
    UnitInterval (transientVal M st c) :=
  clipQ_unit _

theorem dominantData_tonalness_unit (M : NumpyModel) (st : AnalyzerState) (c : List ℚ)
    (hM : ∀ x, 0 ≤ M.pow10Q x) : UnitInterval (dominantData M st c).2.2 := by
  unfold dominantData
  split
  · rename_i ht
    constructor
    · exact div_nonneg (nonneg_getD (cleanedBands_nonneg M st c hM) _) (le_of_lt ht)
    · rw [div_le_one ht]
      exact getD_le_sum (cleanedBands_nonneg M st c hM) _
  · exact ⟨le_refl 0, zero_le_one⟩

/-- Case inversion for a successful `analyze` call: either the noise
gate fired and the result is `gatedStep`, or it did not, the chunk fits
the fine buffer, and the result is `nonGatedStep`. -/
theorem analyze_ok_inv (M : NumpyModel) (st : AnalyzerState) (c : List ℚ)
    (fr : FeatureFrame) (st' : AnalyzerState) (h : analyze M st c = .ok (fr, st')) :
    (rmsVolume M c < NOISE_GATE_THRESHOLD ∧ (fr, st') = gatedStep st) ∨
    (¬ rmsVolume M c < NOISE_GATE_THRESHOLD ∧
      (gainedAudio c).length ≤ SPECTRUM_N_FFT ∧ (fr, st') = nonGatedStep M st c) := by
  unfold analyze at h
  split at h
  · rename_i hg
    exact Or.inl ⟨hg, (Except.ok.inj h).symm⟩
  · rename_i hg
    split at h
    · exact absurd h (fun hh => Except.noConfusion hh)
    · rename_i hlen
      exact Or.inr ⟨hg, Nat.le_of_not_lt hlen, (Except.ok.inj h).symm⟩

theorem wellFormed_preserved (M : NumpyModel) (st : AnalyzerState) (c : List ℚ)
    (fr : FeatureFrame) (st' : AnalyzerState) (h : analyze M st c = .ok (fr, st'))
    (hst : WellFormedState st) : WellFormedState st' := by
  rcases analyze_ok_inv M st c fr st' h with ⟨_, hfr⟩ | ⟨_, _, hfr⟩
  · have hst' : st' = (gatedStep st).2 := congrArg Prod.snd hfr
    subst hst'
    exact ⟨gatedSpectrum_unit st hst.1, gatedEnvelope_unit st hst.2⟩
  · have hst' : st' = (nonGatedStep M st c).2 := congrArg Prod.snd hfr
    subst hst'
    exact ⟨newPrevSpectrum_unit M st c hst.1, newEnvelope_unit M st c⟩

/-- C1: for every well-typed input chunk, each field of the
`FeatureFrame` returned by `analyze` that the spec documents as
normalized - the legacy band energies, the spectrum entries, centroid,
bandwidth, transient, envelope and tonalness - lies in [0,1].  The
hypotheses are the state invariant (which holds initially and is
preserved by every call, `wellFormed_initState` and
`wellFormed_preserved`) and positivity of the modelled `10.0 ** x`. -/
theorem claim1_normalized_fields (M : NumpyModel) (st : AnalyzerState) (c : List ℚ)
    (hM : ∀ x, 0 ≤ M.pow10Q x) (hst : WellFormedState st)
    (fr : FeatureFrame) (st' : AnalyzerState) (h : analyze M st c = .ok (fr, st')) :
    UnitInterval fr.bass ∧ UnitInterval fr.mid ∧ UnitInterval fr.high ∧
    UnitInterval fr.subBass ∧ UnitInterval fr.lowMid ∧ UnitInterval fr.midHigh ∧
    UnitInterval fr.treble ∧ (∀ x ∈ fr.spectrum, UnitInterval x) ∧
    UnitInterval fr.centroid ∧ UnitInterval fr.bandwidth ∧
    UnitInterval fr.transient ∧ UnitInterval fr.envelope ∧
    UnitInterval fr.tonalness := by
  rcases analyze_ok_inv M st c fr st' h with ⟨_, hfr⟩ | ⟨_, _, hfr⟩
  · have hfr1 : fr = (gatedStep st).1 := congrArg Prod.fst hfr
    subst hfr1
    refine ⟨⟨le_refl 0, zero_le_one⟩, ⟨le_refl 0, zero_le_one⟩,
      ⟨le_refl 0, zero_le_one⟩, ⟨le_refl 0, zero_le_one⟩, ⟨le_refl 0, zero_le_one⟩,
      ⟨le_refl 0, zero_le_one⟩, ⟨le_refl 0, zero_le_one⟩,
      gatedSpectrum_unit st hst.1, ⟨le_refl 0, zero_le_one⟩,
      ⟨le_refl 0, zero_le_one⟩, ⟨le_refl 0, zero_le_one⟩,
      gatedEnvelope_unit st hst.2, ⟨le_refl 0, zero_le_one⟩⟩
  · have hfr1 : fr = (nonGatedStep M st c).1 := congrArg Prod.fst hfr
    subst hfr1
    have hnorm := legacyNorms_unit M st c
    have h2 := unit_getD hnorm 2
    have h3 := unit_getD hnorm 3
    refine ⟨unit_getD hnorm 1,
      show UnitInterval (((legacyNorms M st c).getD 2 0 +
          (legacyNorms M st c).getD 3 0) / 2) from
        ⟨by linarith [h2.1, h3.1], by linarith [h2.2, h3.2]⟩,
      unit_getD hnorm 4, unit_getD hnorm 0, h2, h3, unit_getD hnorm 4,
      newPrevSpectrum_unit M st c hst.1, centroidNorm_unit M c,
      bandwidthNorm_unit M c, transientVal_unit M st c,
      newEnvelope_unit M st c, dominantData_tonalness_unit M st c hM⟩

/-! ## Concrete numpy-model instantiations used by witnesses -/

/-- A concrete `NumpyModel` whose square root is identically zero, so
every chunk is gated; used to witness the gated branch. -/
def gateModel : NumpyModel :=
  { sqrtQ := fun _ => 0
    rfftQ := fun _ => []
    hann := fun n => List.replicate n 1
    log10Q := fun _ => 0
    expQ := fun _ => 1
    pow10Q := fun _ => 1
    sf := fun _ => 0 }

theorem claim1_normalized_fields_witness :
    analyze gateModel initState [0] =
      .ok ((gatedStep initState).1, (gatedStep initState).2) ∧
    UnitInterval ((gatedStep initState).1.envelope) ∧
    UnitInterval ((gatedStep initState).1.bass) ∧
    UnitInterval ((gatedStep initState).1.tonalness) := by
  have hM : ∀ x, 0 ≤ gateModel.pow10Q x := fun _ => zero_le_one
  have hh : analyze gateModel initState [0] =
      .ok ((gatedStep initState).1, (gatedStep initState).2) := rfl
  have hall := claim1_normalized_fields gateModel initState [0] hM wellFormed_initState _ _ hh
  obtain ⟨hbass, _, _, _, _, _, _, _, _, _, _, henv, hton⟩ := hall
  exact ⟨hh, henv, hbass, hton⟩

/-- Envelope bound along a run of gated chunks: each gated step
multiplies the envelope by at most 0.85, so it decays geometrically
toward zero. -/
theorem gatedRun_envelope (M : NumpyModel) :
    ∀ (cs : List (List ℚ)) (st st'' : AnalyzerState),
      (∀ c' ∈ cs, rmsVolume M c' < NOISE_GATE_THRESHOLD) → 0 ≤ st.envelopeValue →
      runAnalyzer M st cs = .ok st'' →
      st''.envelopeValue ≤ 0.85 ^ cs.length * st.envelopeValue ∧
      0 ≤ st''.envelopeValue := by
  intro cs
  induction cs with
  | nil =>
    intro st st'' _ h0 hrun
    have hst : st = st'' := Except.ok.inj hrun
    subst hst
    rw [List.length_nil, pow_zero, one_mul]
    exact ⟨le_refl _, h0⟩
  | cons c cs ih =>
    intro st st'' hg h0 hrun
    have hc : rmsVolume M c < NOISE_GATE_THRESHOLD := hg c (List.mem_cons_self c cs)
    have hstep : analyze M st c = .ok (gatedStep st) := by
      unfold analyze
      rw [if_pos hc]
    have hrun' : runAnalyzer M (gatedStep st).2 cs = .ok st'' := by
      unfold runAnalyzer at hrun
      rw [hstep] at hrun
      exact hrun
    have henv := gatedEnvelope_le st h0
    have ih' := ih (gatedStep st).2 st''
      (fun c' hc' => hg c' (List.mem_cons_of_mem c hc')) henv.2 hrun'
    refine ⟨?_, ih'.2⟩
    calc st''.envelopeValue ≤ 0.85 ^ cs.length * (gatedStep st).2.envelopeValue := ih'.1
      _ ≤ 0.85 ^ cs.length * (0.85 * st.envelopeValue) := by
          exact mul_le_mul_of_nonneg_left henv.1 (pow_nonneg (by norm_num) _)
      _ = 0.85 ^ (c :: cs).length * st.envelopeValue := by
          rw [List.length_cons, pow_succ]
          ring

/-- C3: a chunk whose post-gain RMS is below `noise_gate_threshold` is
treated as silence: `analyze` takes the gated branch, volume and all
band, centroid, bandwidth, tonalness and transient outputs are zero,
and the envelope decays toward zero (by a factor of at most 0.85 per
gated call, hence geometrically across successive gated calls). -/
theorem claim3_noise_gate_silence (M : NumpyModel) (st : AnalyzerState) (c : List ℚ)
    (hv : rmsVolume M c < NOISE_GATE_THRESHOLD) (h0 : 0 ≤ st.envelopeValue) :
    analyze M st c = .ok (gatedStep st) ∧
    (gatedStep st).1.volume = 0 ∧ (gatedStep st).1.bass = 0 ∧
    (gatedStep st).1.mid = 0 ∧ (gatedStep st).1.high = 0 ∧
    (gatedStep st).1.subBass = 0 ∧ (gatedStep st).1.lowMid = 0 ∧
    (gatedStep st).1.midHigh = 0 ∧ (gatedStep st).1.treble = 0 ∧
    (gatedStep st).1.centroid = 0 ∧ (gatedStep st).1.bandwidth = 0 ∧
    (gatedStep st).1.tonalness = 0 ∧ (gatedStep st).1.transient = 0 ∧
    (gatedStep st).2.envelopeValue ≤ 0.85 * st.envelopeValue ∧
    0 ≤ (gatedStep st).2.envelopeValue ∧
    (gatedStep st).1.envelope = (gatedStep st).2.envelopeValue ∧
    (∀ (cs : List (List ℚ)) (st'' : AnalyzerState),
      (∀ c' ∈ cs, rmsVolume M c' < NOISE_GATE_THRESHOLD) →
      runAnalyzer M st cs = .ok st'' →
      st''.envelopeValue ≤ 0.85 ^ cs.length * st.envelopeValue) := by
  refine ⟨?_, rfl, rfl, rfl, rfl, rfl, rfl, rfl, rfl, rfl, rfl, rfl, rfl,
    (gatedEnvelope_le st h0).1, (gatedEnvelope_le st h0).2, rfl, ?_⟩
  · unfold analyze
    rw [if_pos hv]
  · intro cs st'' hgs hrun
    exact (gatedRun_envelope M cs st st'' hgs h0 hrun).1

theorem claim3_noise_gate_silence_witness :
    rmsVolume gateModel (List.replicate CHUNK_SIZE 0) < NOISE_GATE_THRESHOLD ∧
    analyze gateModel initState (List.replicate CHUNK_SIZE 0) = .ok (gatedStep initState) ∧
    (gatedStep initState).1.transient = 0 ∧ (gatedStep initState).1.volume = 0 := by
  have hv : rmsVolume gateModel (List.replicate CHUNK_SIZE 0) < NOISE_GATE_THRESHOLD := by
    decide
  obtain ⟨ha, hvol, _, _, _, _, _, _, _, _, _, _, htrans, _⟩ :=
    claim3_noise_gate_silence gateModel initState (List.replicate CHUNK_SIZE 0) hv
      (le_refl 0)
  exact ⟨hv, ha, htrans, hvol⟩

theorem envelopeTarget_unit (M : NumpyModel) (st : AnalyzerState) (c : List ℚ) :
    UnitInterval (envelopeTarget M st c) := by
  have h1 := unit_getD (legacyNorms_unit M st c) 1
  have h2 := unit_getD (legacyNorms_unit M st c) 2
  have h3 := unit_getD (legacyNorms_unit M st c) 3
  have h4 := unit_getD (legacyNorms_unit M st c) 4
  unfold envelopeTarget
  constructor
  · exact le_trans h1.1 (le_max_left _ _)
  · refine max_le h1.2 (max_le ?_ h4.2)
    linarith [h2.1, h2.2, h3.1, h3.2]

theorem envelopeDecayFactor_eq : envelopeDecayFactor = 193 / 225 := by decide

/-- C4: in every non-gated step, if the envelope target (the maximum of
the primary bands' normalized energies) exceeds the current envelope
then the returned envelope equals that target in the same step;
otherwise the envelope is multiplied by the decay factor
`1 - (chunk_duration / decay_time_constant)`, so without a new peak a
positive envelope strictly decreases. -/
theorem claim4_envelope_attack_decay (M : NumpyModel) (st : AnalyzerState) (c : List ℚ)
    (hg : ¬ rmsVolume M c < NOISE_GATE_THRESHOLD)
    (hlen : (gainedAudio c).length ≤ SPECTRUM_N_FFT)
    (h0 : 0 ≤ st.envelopeValue) (h1 : st.envelopeValue ≤ 1) :
    analyze M st c = .ok (nonGatedStep M st c) ∧
    (st.envelopeValue < envelopeTarget M st c →
      (nonGatedStep M st c).1.envelope = envelopeTarget M st c) ∧
    (¬ st.envelopeValue < envelopeTarget M st c →
      (nonGatedStep M st c).1.envelope = st.envelopeValue * envelopeDecayFactor) ∧
    (¬ st.envelopeValue < envelopeTarget M st c → 0 < st.envelopeValue →
      (nonGatedStep M st c).1.envelope < st.envelopeValue) ∧
    envelopeDecayFactor = 1 - ((CHUNK_SIZE : ℚ) / SAMPLE_RATE) / DECAY_TIME := by
  have hana : analyze M st c = .ok (nonGatedStep M st c) := by
    unfold analyze
    rw [if_neg hg, if_neg (Nat.not_lt.mpr hlen)]
  have hf : envelopeDecayFactor = 193 / 225 := envelopeDecayFactor_eq
  refine ⟨hana, ?_, ?_, ?_, rfl⟩
  · intro hlt
    have ht := envelopeTarget_unit M st c
    show newEnvelope M st c = envelopeTarget M st c
    unfold newEnvelope
    rw [if_pos hlt]
    exact clipQ_eq_self ht.1 ht.2
  · intro hge
    show newEnvelope M st c = st.envelopeValue * envelopeDecayFactor
    unfold newEnvelope
    rw [if_neg hge]
    exact clipQ_eq_self (by rw [hf]; nlinarith) (by rw [hf]; nlinarith)
  · intro hge hpos
    show newEnvelope M st c < st.envelopeValue
    unfold newEnvelope
    rw [if_neg hge]
    rw [clipQ_eq_self (by rw [hf]; nlinarith) (by rw [hf]; nlinarith)]
    rw [hf]
    nlinarith

/-- A concrete `NumpyModel` whose square root is identically one, so no
chunk is gated; the FFT model returns the empty spectrum. -/
def loudModel : NumpyModel :=
  { sqrtQ := fun _ => 1
    rfftQ := fun _ => []
    hann := fun n => List.replicate n 1
    log10Q := fun _ => 0
    expQ := fun _ => 1
    pow10Q := fun _ => 1
    sf := fun _ => 0 }

theorem claim4_envelope_attack_decay_witness :
    ¬ rmsVolume loudModel [0] < NOISE_GATE_THRESHOLD ∧
    (nonGatedStep loudModel { initState with envelopeValue := 1 } [0]).1.envelope =
      1 * envelopeDecayFactor := by
  have hg : ¬ rmsVolume loudModel [0] < NOISE_GATE_THRESHOLD := by decide
  obtain ⟨_, _, hdecay, _, _⟩ := claim4_envelope_attack_decay loudModel
    { initState with envelopeValue := 1 } [0] hg (by decide) zero_le_one (le_refl 1)
  refine ⟨hg, hdecay (not_lt.mpr ?_)⟩
  exact (envelopeTarget_unit loudModel { initState with envelopeValue := 1 } [0]).2

theorem getD_zipWith {f : ℚ → ℚ → ℚ} {l1 l2 : List ℚ} {i : ℕ}
    (h1 : i < l1.length) (h2 : i < l2.length) :
    (List.zipWith f l1 l2).getD i 0 = f (l1.getD i 0) (l2.getD i 0) := by
  induction l1 generalizing l2 i with
  | nil => simp at h1
  | cons a as ih =>
    cases l2 with
    | nil => simp at h2
    | cons b bs =>
      cases i with
      | zero => rfl
      | succ n =>
        rw [List.zipWith_cons_cons, List.getD_cons_succ, List.getD_cons_succ,
          List.getD_cons_succ]
        exact ih (by simpa using h1) (by simpa using h2)

theorem getD_map_range {f : ℕ → ℚ} {n i : ℕ} (h : i < n) :
    ((List.range n).map f).getD i 0 = f i := by
  have hl : i < ((List.range n).map f).length := by simpa using h
  rw [List.getD_eq_getElem _ _ hl, List.getElem_map, List.getElem_range]

theorem getD_replicate_lt {x : ℚ} {n i : ℕ} (h : i < n) :
    (List.replicate n x).getD i 0 = x := by
  have hl : i < (List.replicate n x).length := by simpa using h
  rw [List.getD_eq_getElem _ _ hl, List.getElem_replicate]

theorem legacyEnergies_length (M : NumpyModel) (c : List ℚ) :
    (legacyEnergies M c).length = 5 := by
  simp [legacyEnergies, legacyBandBins, FREQ_BANDS]

theorem rawSpectrumBands_length (M : NumpyModel) (st : AnalyzerState) (c : List ℚ) :
    (rawSpectrumBands M st c).length = NUM_SPECTRUM_BANDS := by
  unfold rawSpectrumBands spectrumBins
  rw [List.length_map, List.length_map, List.length_range]

theorem boostedBands_length (M : NumpyModel) (st : AnalyzerState) (c : List ℚ) :
    (boostedBands M st c).length = NUM_SPECTRUM_BANDS := by
  unfold boostedBands
  rw [List.length_zipWith, rawSpectrumBands_length M st c]
  have hb : bassBoost.length = NUM_SPECTRUM_BANDS := by
    unfold bassBoost
    rw [List.length_map, List.length_range]
  rw [hb]
  exact min_self _

theorem harmonicSuppression_length (M : NumpyModel) (fund : ℚ) :
    (harmonicSuppression M fund).length = NUM_SPECTRUM_BANDS := by
  simp [harmonicSuppression]

theorem suppressedBands_length (M : NumpyModel) (st : AnalyzerState) (c : List ℚ) :
    (suppressedBands M st c).length = NUM_SPECTRUM_BANDS := by
  unfold suppressedBands
  rw [List.length_zipWith, boostedBands_length M st c]
  split
  · rw [harmonicSuppression_length]
    exact min_self _
  · rw [List.length_replicate]
    exact min_self _

theorem cleanedBands_length (M : NumpyModel) (st : AnalyzerState) (c : List ℚ) :
    (cleanedBands M st c).length = NUM_SPECTRUM_BANDS := by
  unfold cleanedBands cleanupBands
  split
  · simp
  · exact suppressedBands_length M st c

/-- With an empty power spectrum every band energy is zero (the witness
models use an FFT model returning the empty spectrum; this lemma avoids
evaluating the 373-bin treble sum). -/
theorem bandEnergy_nil (bins : List ℕ) : bandEnergy [] bins = 0 := by
  unfold bandEnergy
  split
  · rfl
  · have hmap : bins.map (fun k => ([] : List ℚ).getD k 0) =
        bins.map (fun _ => (0 : ℚ)) := by
      apply List.map_congr_left
      intro k _
      rfl
    rw [hmap, List.map_const', List.sum_replicate, smul_zero, zero_div]

theorem legacyTotalEnergy_eq_zero (M : NumpyModel) (c : List ℚ)
    (hp : fastPower M c = []) : legacyTotalEnergy M c = 0 := by
  unfold legacyTotalEnergy legacyEnergies
  rw [hp]
  apply List.sum_eq_zero
  intro x hx
  rcases List.mem_map.1 hx with ⟨bins, _, rfl⟩
  exact bandEnergy_nil bins

/-- Amended C5: the previous-total-energy state `prev_raw_volume` is
written only on non-gated steps (where it becomes the chunk's total
legacy band energy); a gated call leaves it unchanged. -/
theorem claim5_prev_total_gate_dependent (M : NumpyModel) (st : AnalyzerState)
    (c : List ℚ) :
    (rmsVolume M c < NOISE_GATE_THRESHOLD →
      analyze M st c = .ok (gatedStep st) ∧
      (gatedStep st).2.prevRawVolume = st.prevRawVolume) ∧
    (¬ rmsVolume M c < NOISE_GATE_THRESHOLD →
      (gainedAudio c).length ≤ SPECTRUM_N_FFT →
      analyze M st c = .ok (nonGatedStep M st c) ∧
      (nonGatedStep M st c).2.prevRawVolume = legacyTotalEnergy M c) := by
  constructor
  · intro hv
    refine ⟨?_, rfl⟩
    unfold analyze
    rw [if_pos hv]
  · intro hg hlen
    refine ⟨?_, rfl⟩
    unfold analyze
    rw [if_neg hg, if_neg (Nat.not_lt.mpr hlen)]

/-- Counterexample to C5 as stated: a gated call (all-zero chunk) leaves
`prev_raw_volume` at its stale value 5 even though the chunk's total
band energy is 0, so the state is not updated on gated steps. -/
theorem claim5_counterexample :
    analyze gateModel { initState with prevRawVolume := 5 } [0] =
      .ok (gatedStep { initState with prevRawVolume := 5 }) ∧
    (gatedStep { initState with prevRawVolume := 5 }).2.prevRawVolume = 5 ∧
    legacyTotalEnergy gateModel [0] = 0 ∧ (5 : ℚ) ≠ 0 := by
  refine ⟨?_, rfl, legacyTotalEnergy_eq_zero gateModel [0] rfl, by norm_num⟩
  unfold analyze
  rw [if_pos (by decide)]

theorem claim5_prev_total_witness :
    analyze gateModel initState [0] = .ok (gatedStep initState) ∧
    (gatedStep initState).2.prevRawVolume = initState.prevRawVolume := by
  exact (claim5_prev_total_gate_dependent gateModel initState [0]).1 (by decide)

/-- Amended C7: `analyze` returns normally exactly when the chunk is
gated or fits the fine-path buffer; a non-gated chunk longer than 2048
samples raises (the numpy broadcast error), and no NaN/Inf sanitization
exists anywhere in the pipeline. -/
theorem claim7_ok_iff (M : NumpyModel) (st : AnalyzerState) (c : List ℚ) :
    (analyze M st c).isOk = true ↔
    (rmsVolume M c < NOISE_GATE_THRESHOLD ∨
      (gainedAudio c).length ≤ SPECTRUM_N_FFT) := by
  unfold analyze
  by_cases hv : rmsVolume M c < NOISE_GATE_THRESHOLD
  · rw [if_pos hv]
    exact iff_of_true rfl (Or.inl hv)
  · rw [if_neg hv]
    by_cases hl : SPECTRUM_N_FFT < (gainedAudio c).length
    · rw [if_pos hl]
      refine iff_of_false (by simp [Except.isOk, Except.toBool]) ?_
      rintro (h | h)
      · exact hv h
      · omega
    · rw [if_neg hl]
      exact iff_of_true rfl (Or.inr (Nat.not_lt.mp hl))

/-- Counterexample to C7 as stated: a well-typed, non-gated chunk of
2049 zero samples makes `analyze` raise the numpy broadcast error
instead of returning a frame. -/
theorem claim7_counterexample :
    analyze loudModel initState (List.replicate 2049 0) = .error broadcastErrorMsg := by
  have hlen : SPECTRUM_N_FFT < (gainedAudio (List.replicate 2049 (0 : ℚ))).length := by
    unfold gainedAudio
    rw [List.length_map, List.length_replicate]
    norm_num [SPECTRUM_N_FFT]
  unfold analyze
  rw [if_neg (by decide), if_pos hlen]

/-- C10: the noise-gate boundary is exclusive.  A chunk whose post-gain
RMS equals `noise_gate_threshold` exactly is processed as non-silent:
the full pipeline runs, the returned volume is the measured RMS (hence
nonzero), the transient state and the fine buffer are updated. -/
theorem claim10_gate_boundary_exclusive (M : NumpyModel) (st : AnalyzerState)
    (c : List ℚ) (hne : c ≠ [])
    (hs : M.sqrtQ (meanSquare c) = NOISE_GATE_THRESHOLD)
    (hlen : (gainedAudio c).length ≤ SPECTRUM_N_FFT) :
    analyze M st c = .ok (nonGatedStep M st c) ∧
    (nonGatedStep M st c).1.volume = M.sqrtQ (meanSquare c) ∧
    (nonGatedStep M st c).1.volume ≠ 0 ∧
    (nonGatedStep M st c).2.prevRawVolume = legacyTotalEnergy M c ∧
    (nonGatedStep M st c).2.spectrumBuffer =
      st.spectrumBuffer.drop (gainedAudio c).length ++ gainedAudio c := by
  have hemp : (gainedAudio c).isEmpty = false := by
    cases c with
    | nil => exact absurd rfl hne
    | cons a as => rfl
  have hv : rmsVolume M c = M.sqrtQ (meanSquare c) := by
    unfold rmsVolume
    rw [hemp]
    rfl
  have hgate : ¬ rmsVolume M c < NOISE_GATE_THRESHOLD := by
    rw [hv, hs]
    exact lt_irrefl _
  have hana : analyze M st c = .ok (nonGatedStep M st c) := by
    unfold analyze
    rw [if_neg hgate, if_neg (Nat.not_lt.mpr hlen)]
  refine ⟨hana, hv, ?_, rfl, rfl⟩
  show rmsVolume M c ≠ 0
  rw [hv, hs]
  decide

/-- A concrete model whose square root always returns exactly the noise
gate threshold. -/
def boundaryModel : NumpyModel :=
  { sqrtQ := fun _ => NOISE_GATE_THRESHOLD
    rfftQ := fun _ => []
    hann := fun n => List.replicate n 1
    log10Q := fun _ => 0
    expQ := fun _ => 1
    pow10Q := fun _ => 1
    sf := fun _ => 0 }

theorem claim10_gate_boundary_witness :
    boundaryModel.sqrtQ (meanSquare [0]) = NOISE_GATE_THRESHOLD ∧
    analyze boundaryModel initState [0] = .ok (nonGatedStep boundaryModel initState [0]) ∧
    (nonGatedStep boundaryModel initState [0]).1.volume ≠ 0 := by
  obtain ⟨ha, _, hnz, _, _⟩ := claim10_gate_boundary_exclusive boundaryModel initState [0]
    (by simp) rfl (by decide)
  exact ⟨rfl, ha, hnz⟩

theorem peaks_nonneg_step (M : NumpyModel) (st : AnalyzerState) (c : List ℚ)
    (fr : FeatureFrame) (st' : AnalyzerState) (h : analyze M st c = .ok (fr, st'))
    (hb : ∀ x ∈ st.bandMax, 0 ≤ x) (hs : ∀ x ∈ st.spectrumMax, 0 ≤ x) :
    (∀ x ∈ st'.bandMax, 0 ≤ x) ∧ (∀ x ∈ st'.spectrumMax, 0 ≤ x) := by
  rcases analyze_ok_inv M st c fr st' h with ⟨_, hfr⟩ | ⟨_, _, hfr⟩
  · have hst' : st' = (gatedStep st).2 := congrArg Prod.snd hfr
    subst hst'
    exact ⟨hb, hs⟩
  · have hst' : st' = (nonGatedStep M st c).2 := congrArg Prod.snd hfr
    subst hst'
    constructor
    · intro x hx
      have hx' : x ∈ newBandMax M st c := hx
      unfold newBandMax at hx'
      rcases exists_of_mem_zipWith hx' with ⟨e, m, _, hm, rfl⟩
      exact le_trans (mul_nonneg (hb m hm) (by norm_num)) (le_max_right _ _)
    · intro x hx
      have hx' : x ∈ newSpectrumMax M st c := hx
      unfold newSpectrumMax at hx'
      rcases exists_of_mem_zipWith hx' with ⟨bv, m, _, hm, rfl⟩
      exact le_trans (mul_nonneg (hs m hm) (by norm_num)) (le_max_right _ _)

/-- C9: along every sequence of `analyze` calls from the initial state,
every legacy per-band running peak and every entry of the 32-band
spectrum peak vector stays non-negative (after each step, i.e. for every
prefix of the call sequence). -/
theorem claim9_running_peaks_nonneg (M : NumpyModel) (cs : List (List ℚ))
    (st' : AnalyzerState) (h : runAnalyzer M initState cs = .ok st') :
    (∀ x ∈ st'.bandMax, 0 ≤ x) ∧ (∀ x ∈ st'.spectrumMax, 0 ≤ x) := by
  suffices haux : ∀ (cs : List (List ℚ)) (st st'' : AnalyzerState),
      (∀ x ∈ st.bandMax, 0 ≤ x) → (∀ x ∈ st.spectrumMax, 0 ≤ x) →
      runAnalyzer M st cs = .ok st'' →
      (∀ x ∈ st''.bandMax, 0 ≤ x) ∧ (∀ x ∈ st''.spectrumMax, 0 ≤ x) by
    refine haux cs initState st' ?_ ?_ h
    · intro x hx
      have hx' : x ∈ List.replicate 5 (0.1 : ℚ) := hx
      rw [List.eq_of_mem_replicate hx']
      norm_num
    · intro x hx
      have hx' : x ∈ List.replicate NUM_SPECTRUM_BANDS (0.1 : ℚ) := hx
      rw [List.eq_of_mem_replicate hx']
      norm_num
  intro cs
  induction cs with
  | nil =>
    intro st st'' hb hs hrun
    have hst : st = st'' := Except.ok.inj hrun
    subst hst
    exact ⟨hb, hs⟩
  | cons c cs ih =>
    intro st st'' hb hs hrun
    unfold runAnalyzer at hrun
    rcases hana : analyze M st c with e | p
    · rw [hana] at hrun
      exact Except.noConfusion hrun
    · rw [hana] at hrun
      obtain ⟨hb1, hs1⟩ := peaks_nonneg_step M st c p.1 p.2 (by rw [hana]) hb hs
      exact ih p.2 st'' hb1 hs1 hrun

theorem claim9_running_peaks_nonneg_witness :
    runAnalyzer gateModel initState [] = .ok initState ∧
    (0.1 : ℚ) ∈ initState.bandMax ∧ (0 : ℚ) ≤ 0.1 := by
  have h : runAnalyzer gateModel initState [] = .ok initState := rfl
  have hmem : (0.1 : ℚ) ∈ initState.bandMax := by decide
  exact ⟨h, hmem, (claim9_running_peaks_nonneg gateModel [] initState h).1 0.1 hmem⟩

/-- C8: (i) in the harmonic-suppression step, every spectrum band whose
center frequency has a ratio outside the five percent tolerance window
`[0.95, 1.05]` for every integer harmonic of the detected fundamental is
left with its energy unchanged by suppression; (ii) inside a window the
exact suppression-factor formula is monotone in the deviation from the
harmonic - strictly positive, below one, and closer to one (weaker
suppression) the farther the deviation - so the strength tapers with
distance. -/
theorem claim8_harmonic_window_and_taper :
    (∀ (M : NumpyModel) (st : AnalyzerState) (c : List ℚ) (b : ℕ),
      b < NUM_SPECTRUM_BANDS →
      (∀ h : ℕ, 2 ≤ h →
        ¬ (0.95 ≤ bandCenter M b /
              (bandCenter M (tempDominantBand M st c) * (h : ℚ)) ∧
           bandCenter M b /
              (bandCenter M (tempDominantBand M st c) * (h : ℚ)) ≤ 1.05)) →
      (suppressedBands M st c).getD b 0 = (boostedBands M st c).getD b 0) ∧
    (∀ baseDb d1 d2 : ℝ, baseDb < 0 → 0 ≤ d1 → d1 ≤ d2 →
      suppressionLinearReal baseDb d1 ≤ suppressionLinearReal baseDb d2 ∧
      0 < suppressionLinearReal baseDb d1 ∧
      suppressionLinearReal baseDb d2 < 1) := by
  constructor
  · intro M st c b hb hout
    unfold suppressedBands
    have hlb : b < (boostedBands M st c).length := by
      rw [boostedBands_length M st c]
      exact hb
    by_cases hsum : 0 < (boostedBands M st c).sum
    · rw [if_pos hsum]
      rw [getD_zipWith hlb (by rw [harmonicSuppression_length]; exact hb)]
      have hfac :
          (harmonicSuppression M (bandCenter M (tempDominantBand M st c))).getD b 0
            = 1 := by
        unfold harmonicSuppression
        rw [getD_map_range hb]
        by_cases hf : 0 < bandCenter M (tempDominantBand M st c)
        · rw [if_pos hf]
          have hnone : (List.range' 2 14).find?
              (fun (h : ℕ) => inHarmonicWindow (bandCenter M b /
                (bandCenter M (tempDominantBand M st c) * (h : ℚ)))) = none := by
            apply List.find?_eq_none.mpr
            intro h hmem
            have h2 : 2 ≤ h := (List.mem_range'_1.1 hmem).1
            unfold inHarmonicWindow
            simp only [decide_eq_true_eq]
            exact hout h h2
          rw [hnone]
        · rw [if_neg hf]
      rw [hfac, mul_one]
    · rw [if_neg hsum]
      rw [getD_zipWith hlb (by rw [List.length_replicate]; exact hb)]
      rw [getD_replicate_lt hb, mul_one]
  · intro baseDb d1 d2 hneg h0 h12
    unfold suppressionLinearReal
    have he : Real.exp (-((d2 / 0.015) ^ 2) / 2) ≤ Real.exp (-((d1 / 0.015) ^ 2) / 2) := by
      apply Real.exp_le_exp.mpr
      have hd : d1 / 0.015 ≤ d2 / 0.015 :=
        (div_le_div_iff_of_pos_right (show (0 : ℝ) < 0.015 by norm_num)).mpr h12
      have hsq : (d1 / 0.015) ^ 2 ≤ (d2 / 0.015) ^ 2 :=
        pow_le_pow_left₀ (by positivity) hd 2
      linarith
    have hxy : baseDb * Real.exp (-((d1 / 0.015) ^ 2) / 2) / 20 ≤
        baseDb * Real.exp (-((d2 / 0.015) ^ 2) / 2) / 20 := by
      have hmm := mul_le_mul_of_nonpos_left he (le_of_lt hneg)
      linarith
    refine ⟨Real.rpow_le_rpow_of_exponent_le (by norm_num) hxy,
      Real.rpow_pos_of_pos (by norm_num) _, ?_⟩
    apply Real.rpow_lt_one_of_one_lt_of_neg (by norm_num)
    have hlt : baseDb * Real.exp (-((d2 / 0.015) ^ 2) / 2) < 0 :=
      mul_neg_of_neg_of_pos hneg (Real.exp_pos _)
    linarith

theorem claim8_harmonic_window_and_taper_witness :
    (suppressedBands loudModel initState [0]).getD 0 0 =
      (boostedBands loudModel initState [0]).getD 0 0 ∧
    suppressionLinearReal (-36) 0 ≤ suppressionLinearReal (-36) (1 / 100) := by
  obtain ⟨h1, h2⟩ := claim8_harmonic_window_and_taper
  constructor
  · refine h1 loudModel initState [0] 0 (by norm_num [NUM_SPECTRUM_BANDS]) ?_
    intro h hh hcon
    have hz : bandCenter loudModel 0 = 0 := by norm_num [bandCenter, loudModel]
    rw [hz, zero_div] at hcon
    exact absurd hcon.1 (by norm_num)
  · exact (h2 (-36) 0 (1 / 100) (by norm_num) (le_refl 0) (by norm_num)).1

/-- Concrete model used for the C2 and C6 counterexample runs: the FFT
model puts power 49 into bin 0 and 196 into bin 1, the band boundaries
are 20 Hz apart, the square root is 1 (no gating), `exp` is 1 and
`10 ** x` is 1/2. -/
def cexModel : NumpyModel :=
  { sqrtQ := fun _ => 1
    rfftQ := fun _ => [(7, 0), (14, 0)]
    hann := fun n => List.replicate n 1
    log10Q := fun _ => 0
    expQ := fun _ => 1
    pow10Q := fun _ => 1 / 2
    sf := fun i => 20 * (i : ℚ) }

set_option maxRecDepth 100000 in
set_option maxHeartbeats 4000000 in
/-- The fine-path bins of `cexModel`, evaluated once (the rational bin
condition is first rewritten to an equivalent natural-number condition
to keep the 32 x 1025 scan affordable). -/
theorem cexBins_eq : spectrumBins cexModel =
    [[0], [1], [2], [3], [4], [5], [], [6], [7], [8], [9], [10], [11], [], [12], [13],
     [14], [15], [16], [17], [], [18], [19], [20], [21], [22], [23], [], [24], [25],
     [26], [27]] := by
  have hnat : ∀ i k : ℕ,
      (cexModel.sf i ≤ (k : ℚ) * SAMPLE_RATE / (SPECTRUM_N_FFT : ℚ) ∧
       (k : ℚ) * SAMPLE_RATE / (SPECTRUM_N_FFT : ℚ) < cexModel.sf (i + 1)) ↔
      (320 * i ≤ 375 * k ∧ 375 * k < 320 * (i + 1)) := by
    intro i k
    have hfreq : (k : ℚ) * SAMPLE_RATE / (SPECTRUM_N_FFT : ℚ) = 375 * (k : ℚ) / 16 := by
      show (k : ℚ) * 48000 / ((2048 : ℕ) : ℚ) = 375 * (k : ℚ) / 16
      push_cast
      ring
    have hsf : ∀ j : ℕ, cexModel.sf j = 20 * (j : ℚ) := fun j => rfl
    rw [hfreq, hsf, hsf]
    constructor
    · rintro ⟨h1, h2⟩
      rw [le_div_iff₀ (by norm_num : (0 : ℚ) < 16)] at h1
      rw [div_lt_iff₀ (by norm_num : (0 : ℚ) < 16)] at h2
      constructor
      · exact_mod_cast (by linarith : (320 * i : ℚ) ≤ 375 * k)
      · exact_mod_cast (by push_cast at h2 ⊢; linarith : (375 * k : ℚ) < 320 * (i + 1))
    · rintro ⟨h1, h2⟩
      have h1' : (320 * i : ℚ) ≤ 375 * k := by exact_mod_cast h1
      have h2' : (375 * k : ℚ) < 320 * (i + 1) := by exact_mod_cast h2
      constructor
      · rw [le_div_iff₀ (by norm_num : (0 : ℚ) < 16)]
        push_cast at h1' ⊢
        linarith
      · rw [div_lt_iff₀ (by norm_num : (0 : ℚ) < 16)]
        push_cast at h2' ⊢
        linarith
  unfold spectrumBins
  have hcongr : ∀ i ∈ List.range NUM_SPECTRUM_BANDS,
      (List.range (SPECTRUM_N_FFT / 2 + 1)).filter
        (fun (k : ℕ) => decide (cexModel.sf i ≤ (k : ℚ) * SAMPLE_RATE / (SPECTRUM_N_FFT : ℚ) ∧
                        (k : ℚ) * SAMPLE_RATE / (SPECTRUM_N_FFT : ℚ) < cexModel.sf (i + 1))) =
      (List.range (SPECTRUM_N_FFT / 2 + 1)).filter
        (fun (k : ℕ) => decide (320 * i ≤ 375 * k ∧ 375 * k < 320 * (i + 1))) := by
    intro i _
    apply List.filter_congr
    intro k _
    exact decide_eq_decide.mpr (hnat i k)
  rw [List.map_congr_left hcongr]
  decide

set_option maxRecDepth 100000

theorem cexRaw_eq : rawSpectrumBands cexModel initState [1] =
    [49, 196] ++ List.replicate 30 0 := by
  unfold rawSpectrumBands
  rw [cexBins_eq]
  decide

theorem cexBoosted_eq : boostedBands cexModel initState [1] =
    [98, 343] ++ List.replicate 30 0 := by
  unfold boostedBands
  rw [cexRaw_eq]
  decide

theorem cexTempDom_eq : tempDominantBand cexModel initState [1] = 1 := by
  unfold tempDominantBand
  rw [cexBoosted_eq]
  decide

theorem cexSuppressed_eq : suppressedBands cexModel initState [1] =
    [98, 343] ++ List.replicate 30 0 := by
  unfold suppressedBands
  rw [cexBoosted_eq, cexTempDom_eq]
  decide

theorem cexCleaned_eq : cleanedBands cexModel initState [1] =
    [98, 343] ++ List.replicate 30 0 := by
  unfold cleanedBands
  rw [cexSuppressed_eq, cexTempDom_eq]
  decide

theorem cexNewMax_eq : newSpectrumMax cexModel initState [1] =
    [98, 343] ++ List.replicate 30 (19 / 200) := by
  unfold newSpectrumMax
  rw [cexCleaned_eq]
  decide

theorem cexGlobalMax_eq : globalMax cexModel initState [1] = 343 := by
  unfold globalMax
  rw [cexNewMax_eq]
  decide

theorem cexNorm_eq : spectrumNorm cexModel initState [1] =
    [2 / 7, 1] ++ List.replicate 30 0 := by
  unfold spectrumNorm
  rw [cexCleaned_eq, cexGlobalMax_eq]
  decide

theorem cexSmooth_eq : (newPrevSpectrum cexModel initState [1]).getD 0 0 = 6 / 35 := by
  unfold newPrevSpectrum
  rw [cexNorm_eq]
  decide

theorem cexDominant_eq : dominantData cexModel initState [1] = (1, 30, 7 / 9) := by
  unfold dominantData
  rw [cexCleaned_eq]
  decide

theorem cexNotGated : analyze cexModel initState [1] =
    .ok (nonGatedStep cexModel initState [1]) := by
  unfold analyze
  rw [if_neg (by decide), if_neg (by decide)]

theorem newBandMax_length (M : NumpyModel) (st : AnalyzerState) (c : List ℚ)
    (hb5 : st.bandMax.length = 5) : (newBandMax M st c).length = 5 := by
  unfold newBandMax
  rw [List.length_zipWith, legacyEnergies_length, hb5]
  exact min_self _

/-- Amended C2: every running peak is updated per band as
`peak = max(energy, peak * decay_rate)` (decay 0.60 for the legacy
bands, 0.95 for the spectrum), and the legacy bands are normalized
against their own updated peak; but the 32-band spectrum is normalized
against the shared global maximum of the whole peak vector
(`max(global_max, 0.01)`), not each band's own peak, and the reported
spectrum is additionally attack/decay-smoothed with the previous
frame. -/
theorem claim2_normalization_scheme (M : NumpyModel) (st : AnalyzerState) (c : List ℚ)
    (hg : ¬ rmsVolume M c < NOISE_GATE_THRESHOLD)
    (hlen : (gainedAudio c).length ≤ SPECTRUM_N_FFT)
    (hb5 : st.bandMax.length = 5) (hs32 : st.spectrumMax.length = NUM_SPECTRUM_BANDS) :
    analyze M st c = .ok (nonGatedStep M st c) ∧
    (∀ i, i < 5 →
      (newBandMax M st c).getD i 0 =
        max ((legacyEnergies M c).getD i 0) (st.bandMax.getD i 0 * 0.60)) ∧
    (∀ i, i < 5 →
      (legacyNorms M st c).getD i 0 =
        clipQ ((legacyEnergies M c).getD i 0 /
          max ((newBandMax M st c).getD i 0) 0.01) 0 1) ∧
    (∀ i, i < NUM_SPECTRUM_BANDS →
      (newSpectrumMax M st c).getD i 0 =
        max ((cleanedBands M st c).getD i 0) (st.spectrumMax.getD i 0 * 0.95)) ∧
    (∀ i, i < NUM_SPECTRUM_BANDS →
      (spectrumNorm M st c).getD i 0 =
        clipQ (if 0 < (cleanedBands M st c).getD i 0 then
          (cleanedBands M st c).getD i 0 / max (globalMax M st c) 0.01 else 0) 0 1) ∧
    (nonGatedStep M st c).1.spectrum = newPrevSpectrum M st c := by
  refine ⟨by unfold analyze; rw [if_neg hg, if_neg (Nat.not_lt.mpr hlen)],
    ?_, ?_, ?_, ?_, rfl⟩
  · intro i hi
    unfold newBandMax
    rw [getD_zipWith (by rw [legacyEnergies_length]; exact hi) (by rw [hb5]; exact hi)]
  · intro i hi
    unfold legacyNorms
    rw [getD_zipWith (by rw [legacyEnergies_length]; exact hi)
      (by rw [newBandMax_length M st c hb5]; exact hi)]
  · intro i hi
    unfold newSpectrumMax
    rw [getD_zipWith (by rw [cleanedBands_length]; exact hi) (by rw [hs32]; exact hi)]
  · intro i hi
    unfold spectrumNorm
    rw [List.map_map, getD_map_range hi]
    rfl

theorem claim2_normalization_scheme_witness :
    (spectrumNorm cexModel initState [1]).getD 0 0 =
      clipQ (if 0 < (cleanedBands cexModel initState [1]).getD 0 0 then
        (cleanedBands cexModel initState [1]).getD 0 0 /
          max (globalMax cexModel initState [1]) 0.01 else 0) 0 1 ∧
    (newBandMax cexModel initState [1]).getD 0 0 =
      max ((legacyEnergies cexModel [1]).getD 0 0) (initState.bandMax.getD 0 0 * 0.60) := by
  have h := claim2_normalization_scheme cexModel initState [1] (by decide) (by decide)
    rfl rfl
  exact ⟨h.2.2.2.2.1 0 (by norm_num [NUM_SPECTRUM_BANDS]), h.2.1 0 (by norm_num)⟩

theorem nonGatedStep_dominantBand (M : NumpyModel) (st : AnalyzerState) (c : List ℚ) :
    (nonGatedStep M st c).1.dominantBand = (dominantData M st c).1 := rfl

theorem nonGatedStep_tonalness (M : NumpyModel) (st : AnalyzerState) (c : List ℚ) :
    (nonGatedStep M st c).1.tonalness = (dominantData M st c).2.2 := rfl

theorem nonGatedStep_spectrum (M : NumpyModel) (st : AnalyzerState) (c : List ℚ) :
    (nonGatedStep M st c).1.spectrum = newPrevSpectrum M st c := rfl

/-- Counterexample to C2 as stated: in the non-gated run of `analyze`
on the chunk `[1]` from the initial state, spectrum band 0 has energy 98
and its own updated running peak is 98, so the claimed per-band formula
gives `clip(98 / max(98, 0.01)) = 1`; but the analyzer divides by the
shared global maximum 343 and reports `98 / 343 = 2/7` (smoothed to
`6/35` in the returned frame), which differs. -/
theorem claim2_counterexample :
    analyze cexModel initState [1] = .ok (nonGatedStep cexModel initState [1]) ∧
    (cleanedBands cexModel initState [1]).getD 0 0 = 98 ∧
    (newSpectrumMax cexModel initState [1]).getD 0 0 = 98 ∧
    (spectrumNorm cexModel initState [1]).getD 0 0 = 2 / 7 ∧
    perBandNormOfSpec ((cleanedBands cexModel initState [1]).getD 0 0)
      ((newSpectrumMax cexModel initState [1]).getD 0 0) = 1 ∧
    (2 : ℚ) / 7 ≠ 1 ∧
    (nonGatedStep cexModel initState [1]).1.spectrum.getD 0 0 = 6 / 35 := by
  refine ⟨cexNotGated, ?_, ?_, ?_, ?_, by decide, ?_⟩
  · rw [cexCleaned_eq]
    decide
  · rw [cexNewMax_eq]
    decide
  · rw [cexNorm_eq]
    decide
  · rw [cexCleaned_eq, cexNewMax_eq]
    decide
  · rw [nonGatedStep_spectrum]
    exact cexSmooth_eq

/-- Amended C6: there is no warm-up placeholder.  The fine-path buffer
is zero-initialized, every non-gated call (in particular the very first
one, when the buffer holds fewer real samples than one FFT window)
computes the spectrum from the zero-padded rolled buffer and returns a
normal frame with the measured volume; only the noise gate produces a
zeroed frame. -/
theorem claim6_no_warmup_placeholder (M : NumpyModel) (st : AnalyzerState) (c : List ℚ)
    (hg : ¬ rmsVolume M c < NOISE_GATE_THRESHOLD)
    (hlen : (gainedAudio c).length ≤ SPECTRUM_N_FFT) :
    analyze M st c = .ok (nonGatedStep M st c) ∧
    (nonGatedStep M st c).1.volume = rmsVolume M c ∧
    (nonGatedStep M st c).2.spectrumBuffer =
      st.spectrumBuffer.drop (gainedAudio c).length ++ gainedAudio c := by
  refine ⟨?_, rfl, rfl⟩
  unfold analyze
  rw [if_neg hg, if_neg (Nat.not_lt.mpr hlen)]

theorem claim6_no_warmup_placeholder_witness :
    analyze cexModel initState [1] = .ok (nonGatedStep cexModel initState [1]) ∧
    (nonGatedStep cexModel initState [1]).1.volume = rmsVolume cexModel [1] := by
  obtain ⟨h1, h2, _⟩ :=
    claim6_no_warmup_placeholder cexModel initState [1] (by decide) (by decide)
  exact ⟨h1, h2⟩

/-- Counterexample to C6 as stated: on the very first call from the
initial state (fine buffer all zeros, only 1 real sample received,
far fewer than the 2048-sample window) the analyzer does not return a
placeholder with zeroed spectrum fields: the returned dominant band is
1 (not the sentinel -1), tonalness is 7/9 and spectrum entry 0 is 6/35,
all nonzero, computed from the zero-padded buffer. -/
theorem claim6_counterexample :
    initState.spectrumBuffer = List.replicate SPECTRUM_N_FFT 0 ∧
    (1 : ℕ) < SPECTRUM_N_FFT ∧
    analyze cexModel initState [1] = .ok (nonGatedStep cexModel initState [1]) ∧
    (nonGatedStep cexModel initState [1]).1.dominantBand = 1 ∧
    (1 : ℤ) ≠ -1 ∧
    (nonGatedStep cexModel initState [1]).1.tonalness = 7 / 9 ∧
    (7 : ℚ) / 9 ≠ 0 ∧
    (nonGatedStep cexModel initState [1]).1.spectrum.getD 0 0 = 6 / 35 ∧
    (6 : ℚ) / 35 ≠ 0 := by
  refine ⟨rfl, by decide, cexNotGated, ?_, by decide, ?_, by decide, ?_, by decide⟩
  · rw [nonGatedStep_dominantBand, cexDominant_eq]
  · rw [nonGatedStep_tonalness, cexDominant_eq]
  · rw [nonGatedStep_spectrum]
    exact cexSmooth_eq
